import Mathlib

/-!
Verification of the locale-codes registry layer.

The crate root (src/lib.rs) documents the registry modules (language,
country, currency, script, region), their query surface (lookup,
lookup_by_alpha, lookup_by_numeric, all_codes) and the cross-registry
joins; the module bodies themselves are generated data plus the generic
codeset engine described in the design document.  The definitions below
embed that engine and the registry instances; where a module body is not
present under src/, the definition is modelled from the spec and says so
in its doc comment.
-/

deriving instance DecidableEq for Except

namespace LocaleCodes

/-! ### Character and digit-string groundwork -/

/-- Uppercase an alphabetic identifier, character by character (ASCII-range
uppercasing, the normalization the engine applies to alphabetic codes). -/
def upStr (s : String) : String := String.mk (s.data.map Char.toUpper)

/-- Lowercase a string character by character (used for the language
component of a composed locale string). -/
def downStr (s : String) : String := String.mk (s.data.map Char.toLower)

/-- Title-case a string: first character uppercased, rest lowercased (used
for the script component of a composed locale string). -/
def titleStr (s : String) : String :=
  match s.data with
  | [] => s
  | c :: rest => String.mk (c.toUpper :: rest.map Char.toLower)

/-- The decimal digit character for a digit value. -/
def digitChar (d : Nat) : Char := Char.ofNat (48 + d)

/-- Little-endian decimal digits of a number, with explicit fuel so the
recursion is structural. -/
def toDigitsAux : Nat → Nat → List Nat
  | 0, _ => []
  | fuel + 1, n => if n = 0 then [] else n % 10 :: toDigitsAux fuel (n / 10)

/-- Render a numeric identifier as its decimal string (the string form a
numeric code takes in the unified code enumeration). -/
def natToCode (n : Nat) : String :=
  if n = 0 then "0" else String.mk (((toDigitsAux n n).reverse).map digitChar)

/-- Numeric value of an all-digit query string (decimal). -/
def digitsVal (s : String) : Nat :=
  s.data.foldl (fun a c => a * 10 + (c.toNat - 48)) 0

/-- Is the query string non-empty and made of decimal digits only?  Such
"numeric-looking" input is routed to the numeric index first. -/
def isAllDigits (s : String) : Bool :=
  !s.data.isEmpty && s.data.all Char.isDigit

/-! ### Data model

Modelled from the spec: the per-registry record types (LanguageInfo,
CountryInfo, CurrencyInfo, ScriptInfo, RegionInfo) are not present under
src/; the spec's data-model contract (§3) gives each record up to one
alpha-2 and one alpha-3 identifier, up to one numeric identifier,
descriptive fields, and foreign-key identifier fields (a country's region
reference, a currency's list of using-country names).  One record shape
carrying all of those fields covers every registry. -/

/-- One identifier keyspace of a registry. -/
inductive IdForm
  | alpha2
  | alpha3
  | numeric
deriving DecidableEq

/-- A registry record: identifier forms, a descriptive name, and the
foreign-key fields used by the cross-registry joins. -/
structure RecordInfo where
  alpha2 : Option String
  alpha3 : Option String
  numeric : Option Nat
  name : String
  regionCode : Option String
  countries : List String
deriving DecidableEq

/-- Load-time failure: two records share an identifier of the same form. -/
inductive LoadError
  | DuplicateIdentifier (registry : String) (form : IdForm) (value : String)
deriving DecidableEq

/-- A loaded registry: its name and its records (alphabetic identifiers
stored in canonical uppercase form). -/
structure Codeset where
  registry : String
  records : List RecordInfo
deriving DecidableEq

/-- Canonicalize a record for storage: alphabetic identifiers uppercased. -/
def normRec (r : RecordInfo) : RecordInfo :=
  RecordInfo.mk (r.alpha2.map upStr) (r.alpha3.map upStr) r.numeric
    r.name r.regionCode r.countries

/-- First value occurring twice in a list of identifier keys, if any. -/
def firstDup : List String → Option String
  | [] => none
  | c :: rest => if rest.contains c then some c else firstDup rest

/-- Modelled from the spec: the codeset load step (§4.1, not under src/).
Normalizes alphabetic identifiers to uppercase, then fails with
`DuplicateIdentifier` if two records share an identifier of the same form;
only on success is a queryable `Codeset` produced. -/
def Codeset.load (registry : String) (ds : List RecordInfo) : Except LoadError Codeset :=
  match firstDup ((ds.map normRec).filterMap (fun r => r.alpha2)) with
  | some v => Except.error (LoadError.DuplicateIdentifier registry IdForm.alpha2 v)
  | none =>
    match firstDup ((ds.map normRec).filterMap (fun r => r.alpha3)) with
    | some v => Except.error (LoadError.DuplicateIdentifier registry IdForm.alpha3 v)
    | none =>
      match firstDup (((ds.map normRec).filterMap (fun r => r.numeric)).map natToCode) with
      | some v => Except.error (LoadError.DuplicateIdentifier registry IdForm.numeric v)
      | none => Except.ok (Codeset.mk registry (ds.map normRec))

/-- Lookup restricted to the numeric index. -/
def Codeset.lookupByNumeric (c : Codeset) (n : Nat) : Option RecordInfo :=
  c.records.find? (fun r => r.numeric == some n)

/-- Modelled from the spec: lookup restricted to the alphabetic indices
(§4.1, not under src/); the query is uppercased and matched against the
index of its exact length. -/
def Codeset.lookupByAlpha (c : Codeset) (code : String) : Option RecordInfo :=
  let q := upStr code
  if q.data.length = 2 then c.records.find? (fun r => r.alpha2 == some q)
  else if q.data.length = 3 then c.records.find? (fun r => r.alpha3 == some q)
  else none

/-- Modelled from the spec: the unified lookup (§4.1, not under src/).
All-digit input is tried against the numeric index first and falls back to
the alphabetic indices; other input goes to the alphabetic index of its
exact length.  "Not found" is `none`, never an error. -/
def Codeset.lookup (c : Codeset) (s : String) : Option RecordInfo :=
  if isAllDigits s then
    match c.lookupByNumeric (digitsVal s) with
    | some r => some r
    | none => c.lookupByAlpha s
  else c.lookupByAlpha s

/-- The identifiers one record contributes to the code enumeration, with
their forms (numeric codes rendered as decimal strings). -/
def recCodes (r : RecordInfo) : List (IdForm × String) :=
  (match r.alpha2 with | some a => [(IdForm.alpha2, a)] | none => []) ++
  (match r.alpha3 with | some a => [(IdForm.alpha3, a)] | none => []) ++
  (match r.numeric with | some n => [(IdForm.numeric, natToCode n)] | none => [])

/-- Every identifier string carried by a record, across all forms. -/
def recIdentStrings (r : RecordInfo) : List String :=
  r.alpha2.toList ++ r.alpha3.toList ++ (r.numeric.toList.map natToCode)

/-- Enumerate all known identifiers of the registry, in dataset order. -/
def Codeset.allCodes (c : Codeset) : List (IdForm × String) :=
  c.records.flatMap recCodes

/-- Enumerate the alphabetic identifiers of the registry. -/
def Codeset.allAlphaCodes (c : Codeset) : List String :=
  c.records.flatMap (fun r => r.alpha2.toList ++ r.alpha3.toList)

/-- Enumerate the numeric identifiers of the registry. -/
def Codeset.allNumericCodes (c : Codeset) : List Nat :=
  c.records.filterMap (fun r => r.numeric)

/-- A lookup attempted through a registry's load result: a failed load has
no codeset, so every query on it reproduces the load error instead of an
answer. -/
def tryLookup (e : Except LoadError Codeset) (s : String) : Except LoadError (Option RecordInfo) :=
  match e with
  | Except.error err => Except.error err
  | Except.ok c => Except.ok (c.lookup s)

/-! ### Registry instances

Modelled from the spec: the generated per-registry datasets are not under
src/ (they are produced by the excluded generation pipeline); the records
below are the ones the spec's end-to-end scenario (§8) names, plus one
extra record per registry so lookups have non-matching records to skip. -/

/-- Mexico: the spec's end-to-end country record (alpha-2 MX, alpha-3 MEX,
region reference 019). -/
def countryMexRecord : RecordInfo :=
  RecordInfo.mk (some "MX") (some "MEX") none "Mexico" (some "019") []

/-- A second country record, so the country registry has more than one
entry. -/
def countryUsaRecord : RecordInfo :=
  RecordInfo.mk (some "US") (some "USA") none "United States of America" (some "019") []

/-- Modelled from the spec: the country dataset (§8 end-to-end scenario). -/
def countryData : List RecordInfo := [countryMexRecord, countryUsaRecord]

/-- A record sharing the alpha-3 identifier MEX with the Mexico record but
carrying a distinct alpha-2 code. -/
def countryDupRecord : RecordInfo :=
  RecordInfo.mk (some "AA") (some "MEX") none "Duplicate of Mexico" none []

/-- A country dataset in which two records share the alpha-3 identifier
MEX (load must fail on it). -/
def countryDupData : List RecordInfo := [countryMexRecord, countryDupRecord]

/-- English: a language record carrying both a 2- and a 3-character code. -/
def languageEnRecord : RecordInfo :=
  RecordInfo.mk (some "EN") (some "ENG") none "English" none []

/-- Spanish: a second language record. -/
def languageEsRecord : RecordInfo :=
  RecordInfo.mk (some "ES") (some "SPA") none "Spanish" none []

/-- Modelled from the spec: the language dataset (2- and 3-character codes,
crate doc). -/
def languageData : List RecordInfo := [languageEnRecord, languageEsRecord]

/-- Americas: the spec's end-to-end region record (code 019). -/
def regionAmericasRecord : RecordInfo :=
  RecordInfo.mk none none (some 19) "Americas" none []

/-- Europe: a second region record. -/
def regionEuropeRecord : RecordInfo :=
  RecordInfo.mk none none (some 150) "Europe" none []

/-- Modelled from the spec: the region dataset (§8 end-to-end scenario). -/
def regionData : List RecordInfo := [regionAmericasRecord, regionEuropeRecord]

/-- Mexican peso: the spec's end-to-end currency record (alphabetic MXN,
numeric 484, used by Mexico). -/
def currencyMxnRecord : RecordInfo :=
  RecordInfo.mk none (some "MXN") (some 484) "Mexican peso" none ["Mexico"]

/-- US dollar: a second currency record. -/
def currencyUsdRecord : RecordInfo :=
  RecordInfo.mk none (some "USD") (some 840) "US dollar" none
    ["United States of America", "Ecuador"]

/-- Modelled from the spec: the currency dataset (§8 end-to-end scenario). -/
def currencyData : List RecordInfo := [currencyMxnRecord, currencyUsdRecord]

/-- Latin script: an alphabetic-plus-numeric script record (alphabetic code
kept within the spec's 2-or-3-character bound). -/
def scriptLatRecord : RecordInfo :=
  RecordInfo.mk none (some "LAT") (some 215) "Latin" none []

/-- Modelled from the spec: the script dataset (alphabetic and numeric
codes, crate doc). -/
def scriptData : List RecordInfo := [scriptLatRecord]

/-- Extract the codeset from a load result (empty registry on failure;
used only to name the successfully loaded registry instances). -/
def getOrEmpty (e : Except LoadError Codeset) : Codeset :=
  match e with
  | Except.ok c => c
  | Except.error _ => Codeset.mk "" []

/-- The loaded country registry. -/
def countryCodeset : Codeset := getOrEmpty (Codeset.load "country" countryData)

/-- The loaded language registry. -/
def languageCodeset : Codeset := getOrEmpty (Codeset.load "language" languageData)

/-- The loaded region registry. -/
def regionCodeset : Codeset := getOrEmpty (Codeset.load "region" regionData)

/-- The loaded currency registry. -/
def currencyCodeset : Codeset := getOrEmpty (Codeset.load "currency" currencyData)

/-- The loaded script registry. -/
def scriptCodeset : Codeset := getOrEmpty (Codeset.load "script" scriptData)

/-- The country module's single lookup: exactly the generic engine on the
country codeset (crate doc: country supports 2- and 3-character codes
through one lookup). -/
def country.lookup (s : String) : Option RecordInfo := countryCodeset.lookup s

/-- The language module's single lookup: exactly the generic engine on the
language codeset. -/
def language.lookup (s : String) : Option RecordInfo := languageCodeset.lookup s

/-- The region module's single lookup: exactly the generic engine on the
region codeset (crate example: region::lookup on a country's region
code). -/
def region.lookup (s : String) : Option RecordInfo := regionCodeset.lookup s

/-- The currency module's alphabetic lookup. -/
def currency.lookupByAlpha (s : String) : Option RecordInfo := currencyCodeset.lookupByAlpha s

/-- The currency module's numeric lookup. -/
def currency.lookupByNumeric (n : Nat) : Option RecordInfo := currencyCodeset.lookupByNumeric n

/-- The script module's alphabetic lookup. -/
def script.lookupByAlpha (s : String) : Option RecordInfo := scriptCodeset.lookupByAlpha s

/-- The script module's numeric lookup. -/
def script.lookupByNumeric (n : Nat) : Option RecordInfo := scriptCodeset.lookupByNumeric n

/-- Modelled from the spec: the currency module's cross-registry join
(§4.2): a pure filter of the currency records whose using-country list
names the country. -/
def currency.currenciesForCountryName (name : String) : List RecordInfo :=
  currencyCodeset.records.filter (fun r => r.countries.contains name)

/-- Modelled from the spec: the country-to-region join (§4.2): the
country's region foreign key is resolved through the region registry's
lookup, never through an embedded reference. -/
def country.regionForCountry (code : String) : Option RecordInfo :=
  match country.lookup code with
  | some r =>
    match r.regionCode with
    | some rc => region.lookup rc
    | none => none
  | none => none

/-! ### Public query surface per registry

Modelled from the spec: which query functions each registry module
exposes (crate doc items 1-4 and the region example; spec §6).  The crate
doc says modules typically expose one `lookup`, except that standards
with both alphabetic and numeric identifiers expose `lookup_by_alpha`
and `lookup_by_numeric` instead. -/

/-- The query surface of one registry module: which alphabetic lengths and
whether a numeric form exist, and which lookup entry points the module
exposes. -/
structure Surface where
  name : String
  alphaLens : List Nat
  hasNumericForm : Bool
  hasLookup : Bool
  hasLookupByAlpha : Bool
  hasLookupByNumeric : Bool
deriving DecidableEq

/-- Language module surface: 2- and 3-character alphabetic codes, one
unified lookup. -/
def languageSurface : Surface := Surface.mk "language" [2, 3] false true false false

/-- Country module surface: 2- and 3-character alphabetic codes, one
unified lookup. -/
def countrySurface : Surface := Surface.mk "country" [2, 3] false true false false

/-- Currency module surface: alphabetic and numeric codes, the
lookup-by-alpha / lookup-by-numeric pair and no unified lookup. -/
def currencySurface : Surface := Surface.mk "currency" [3] true false true true

/-- Script module surface: alphabetic and numeric codes, the
lookup-by-alpha / lookup-by-numeric pair and no unified lookup. -/
def scriptSurface : Surface := Surface.mk "script" [3] true false true true

/-- Region module surface: numeric codes only, one unified lookup (the
crate example calls region::lookup on a country's numeric region code). -/
def regionSurface : Surface := Surface.mk "region" [] true true false false

/-- All five registry module surfaces. -/
def registrySurfaces : List Surface :=
  [languageSurface, countrySurface, currencySurface, scriptSurface, regionSurface]

/-- The claim's reading of the surface rule: both-form registries expose
the pair instead of a unified lookup, and a unified lookup exists only on
purely alphabetic registries. -/
def surfaceAsClaimed (s : Surface) : Prop :=
  (s.alphaLens ≠ [] ∧ s.hasNumericForm = true →
      s.hasLookup = false ∧ s.hasLookupByAlpha = true ∧ s.hasLookupByNumeric = true)
  ∧ (s.hasLookup = true → s.alphaLens ≠ [] ∧ s.hasNumericForm = false)

instance (s : Surface) : Decidable (surfaceAsClaimed s) := by
  unfold surfaceAsClaimed; infer_instance

/-- The surface rule as the registries actually satisfy it: both-form
registries expose the pair instead of a unified lookup, and a unified
lookup exists only where the registry does not mix alphabetic and numeric
keyspaces. -/
def surfaceAmended (s : Surface) : Prop :=
  (s.alphaLens ≠ [] ∧ s.hasNumericForm = true →
      s.hasLookup = false ∧ s.hasLookupByAlpha = true ∧ s.hasLookupByNumeric = true)
  ∧ (s.hasLookup = true → s.alphaLens = [] ∨ s.hasNumericForm = false)

instance (s : Surface) : Decidable (surfaceAmended s) := by
  unfold surfaceAmended; infer_instance

/-! ### Locale identifier builder

Modelled from the spec: the locale builder (§4.3) is not under src/; in
strict mode each supplied component is validated through the
corresponding registry's lookup and the build fails with
`UnknownIdentifier(component, value)` on the first unknown component; in
lenient mode components are accepted verbatim.  The output joins the
components with the locale separator, language lowercased, script
title-cased, region uppercased. -/

/-- Recoverable failure of strict locale building. -/
inductive BuildError
  | UnknownIdentifier (component : String) (value : String)
deriving DecidableEq

/-- Validate one optional component against its registry; an absent
component is valid. -/
def checkComponent (cs : Codeset) (component : String) (v : Option String) : Option BuildError :=
  match v with
  | none => none
  | some s =>
    match cs.lookup s with
    | some _ => none
    | none => some (BuildError.UnknownIdentifier component s)

/-- The composed locale string: language lowercased, then optional script
title-cased and optional region uppercased, joined by the separator. -/
def composeLocale (lang : String) (script region : Option String) : String :=
  downStr lang
    ++ (match script with | some sc => "-" ++ titleStr sc | none => "")
    ++ (match region with | some rg => "-" ++ upStr rg | none => "")

/-- Build a locale string from a language and optional script and region,
validating each component against its registry when strict. -/
def buildLocale (langCs scriptCs regionCs : Codeset) (strict : Bool)
    (lang : String) (script region : Option String) : Except BuildError String :=
  if strict then
    match langCs.lookup lang with
    | none => Except.error (BuildError.UnknownIdentifier "language" lang)
    | some _ =>
      match checkComponent scriptCs "script" script with
      | some e => Except.error e
      | none =>
        match checkComponent regionCs "region" region with
        | some e => Except.error e
        | none => Except.ok (composeLocale lang script region)
  else Except.ok (composeLocale lang script region)

/-- Well-formedness of a record's alphabetic identifiers as the data model
fixes them (§3): alpha-2 is two letters, alpha-3 is three letters. -/
def alphaWF (r : RecordInfo) : Bool :=
  (match r.alpha2 with
   | some a => a.data.length == 2 && a.data.all Char.isAlpha
   | none => true) &&
  (match r.alpha3 with
   | some a => a.data.length == 3 && a.data.all Char.isAlpha
   | none => true)

/-! ### Groundwork lemmas: characters -/

theorem char_isDigit_iff (c : Char) : c.isDigit = true ↔ 48 ≤ c.toNat ∧ c.toNat ≤ 57 := by
  simp [Char.isDigit, Char.toNat, UInt32.le_def, BitVec.le_def, UInt32.toNat]

theorem char_isAlpha_iff (c : Char) :
    c.isAlpha = true ↔ (65 ≤ c.toNat ∧ c.toNat ≤ 90) ∨ (97 ≤ c.toNat ∧ c.toNat ≤ 122) := by
  simp [Char.isAlpha, Char.isUpper, Char.isLower, Char.toNat, UInt32.le_def, BitVec.le_def,
    UInt32.toNat]

theorem ofNat_toNat_upper (m : Nat) (h1 : 65 ≤ m) (h2 : m ≤ 90) : (Char.ofNat m).toNat = m := by
  interval_cases m <;> decide

theorem toUpper_eq_of_not_lower (c : Char) (h : ¬ (97 ≤ c.toNat ∧ c.toNat ≤ 122)) :
    c.toUpper = c := by
  unfold Char.toUpper
  rw [if_neg]
  exact h

theorem toUpper_of_lower (c : Char) (h : 97 ≤ c.toNat ∧ c.toNat ≤ 122) :
    c.toUpper = Char.ofNat (c.toNat - 32) := by
  unfold Char.toUpper
  rw [if_pos h]

theorem toUpper_toNat (c : Char) (h : 97 ≤ c.toNat ∧ c.toNat ≤ 122) :
    (c.toUpper).toNat = c.toNat - 32 := by
  rw [toUpper_of_lower c h]
  exact ofNat_toNat_upper _ (by omega) (by omega)

theorem toUpper_idem (c : Char) : c.toUpper.toUpper = c.toUpper := by
  by_cases h : 97 ≤ c.toNat ∧ c.toNat ≤ 122
  · apply toUpper_eq_of_not_lower
    rw [toUpper_toNat c h]
    omega
  · rw [toUpper_eq_of_not_lower c h, toUpper_eq_of_not_lower c h]

theorem toUpper_isDigit (c : Char) : c.toUpper.isDigit = c.isDigit := by
  by_cases h : 97 ≤ c.toNat ∧ c.toNat ≤ 122
  · have h1 : c.isDigit = false := by
      rw [Bool.eq_false_iff]
      intro hd
      rw [char_isDigit_iff] at hd
      omega
    have h2 : c.toUpper.isDigit = false := by
      rw [Bool.eq_false_iff]
      intro hd
      rw [char_isDigit_iff, toUpper_toNat c h] at hd
      omega
    rw [h1, h2]
  · rw [toUpper_eq_of_not_lower c h]

theorem toUpper_of_isDigit (c : Char) (h : c.isDigit = true) : c.toUpper = c := by
  rw [char_isDigit_iff] at h
  exact toUpper_eq_of_not_lower c (by omega)

theorem not_isDigit_of_isAlpha (c : Char) (h : c.isAlpha = true) : c.isDigit = false := by
  rw [char_isAlpha_iff] at h
  rw [Bool.eq_false_iff]
  intro hd
  rw [char_isDigit_iff] at hd
  omega

/-! ### Groundwork lemmas: digit strings -/

theorem digitChar_toNat (d : Nat) (h : d < 10) : (digitChar d).toNat = 48 + d := by
  unfold digitChar
  interval_cases d <;> decide

theorem digitChar_isDigit (d : Nat) (h : d < 10) : (digitChar d).isDigit = true := by
  unfold digitChar
  interval_cases d <;> decide

theorem toDigitsAux_succ (fuel n : Nat) :
    toDigitsAux (fuel + 1) n = if n = 0 then [] else n % 10 :: toDigitsAux fuel (n / 10) := rfl

theorem toDigitsAux_lt (fuel n : Nat) : ∀ d ∈ toDigitsAux fuel n, d < 10 := by
  induction fuel generalizing n with
  | zero => intro d hd; simp [toDigitsAux] at hd
  | succ fuel ih =>
    intro d hd
    unfold toDigitsAux at hd
    by_cases h : n = 0
    · simp [h] at hd
    · rw [if_neg h] at hd
      rcases List.mem_cons.mp hd with h1 | h2
      · omega
      · exact ih _ d h2

theorem foldl_render (fuel : Nat) : ∀ n acc, n ≤ fuel →
    List.foldl (fun a c => a * 10 + (c.toNat - 48)) acc
        ((toDigitsAux fuel n).reverse.map digitChar)
      = acc * 10 ^ (toDigitsAux fuel n).length + n := by
  induction fuel with
  | zero =>
    intro n acc h
    have hn : n = 0 := by omega
    subst hn
    simp [toDigitsAux]
  | succ fuel ih =>
    intro n acc h
    by_cases h0 : n = 0
    · subst h0; simp [toDigitsAux]
    · have hstep : toDigitsAux (fuel + 1) n = n % 10 :: toDigitsAux fuel (n / 10) := by
        rw [toDigitsAux_succ, if_neg h0]
      rw [hstep]
      have hle : n / 10 ≤ fuel := by
        have := Nat.div_lt_self (Nat.pos_of_ne_zero h0) (by norm_num : 1 < 10)
        omega
      simp only [List.reverse_cons, List.map_append, List.foldl_append, List.map_cons,
        List.map_nil, List.foldl_cons, List.foldl_nil, List.length_cons]
      rw [ih (n / 10) acc hle]
      have hd : (digitChar (n % 10)).toNat = 48 + n % 10 :=
        digitChar_toNat _ (Nat.mod_lt _ (by norm_num))
      rw [hd, pow_succ, ← mul_assoc]
      set K := acc * 10 ^ (toDigitsAux fuel (n / 10)).length with hK
      omega

theorem digitsVal_natToCode (n : Nat) : digitsVal (natToCode n) = n := by
  by_cases h0 : n = 0
  · subst h0; decide
  · unfold natToCode
    rw [if_neg h0]
    unfold digitsVal
    have hdata : (String.mk ((toDigitsAux n n).reverse.map digitChar)).data
        = (toDigitsAux n n).reverse.map digitChar := rfl
    rw [hdata, foldl_render n n 0 (Nat.le_refl n)]
    simp

theorem isAllDigits_natToCode (n : Nat) : isAllDigits (natToCode n) = true := by
  by_cases h0 : n = 0
  · subst h0; decide
  · unfold natToCode isAllDigits
    rw [if_neg h0]
    have hdata : (String.mk ((toDigitsAux n n).reverse.map digitChar)).data
        = (toDigitsAux n n).reverse.map digitChar := rfl
    rw [hdata, Bool.and_eq_true]
    constructor
    · obtain ⟨m, rfl⟩ : ∃ m, n = m + 1 := ⟨n - 1, by omega⟩
      have hstep : toDigitsAux (m + 1) (m + 1) = (m + 1) % 10 :: toDigitsAux m ((m + 1) / 10) := by
        rw [toDigitsAux_succ, if_neg h0]
      rw [hstep]
      simp
    · rw [List.all_eq_true]
      intro c hc
      rw [List.mem_map] at hc
      obtain ⟨d, hd, rfl⟩ := hc
      rw [List.mem_reverse] at hd
      exact digitChar_isDigit d (toDigitsAux_lt n n d hd)

/-! ### Groundwork lemmas: strings -/

theorem upStr_data (s : String) : (upStr s).data = s.data.map Char.toUpper := rfl

theorem upStr_length (s : String) : (upStr s).data.length = s.data.length := by
  rw [upStr_data, List.length_map]

theorem map_fixpoints {f : Char → Char} :
    ∀ l : List Char, (∀ c ∈ l, f c = c) → l.map f = l := by
  intro l
  induction l with
  | nil => intro _; rfl
  | cons c tl ih =>
    intro h
    rw [List.map_cons, h c (List.mem_cons_self c tl), ih (fun x hx => h x (List.mem_cons_of_mem c hx))]

theorem upStr_idem (s : String) : upStr (upStr s) = upStr s := by
  unfold upStr
  rw [show (String.mk (s.data.map Char.toUpper)).data = s.data.map Char.toUpper from rfl]
  rw [List.map_map]
  apply congrArg
  have : ∀ c ∈ s.data, (Char.toUpper ∘ Char.toUpper) c = Char.toUpper c := by
    intro c _
    exact toUpper_idem c
  rw [show s.data.map Char.toUpper = s.data.map (fun c => Char.toUpper c) from rfl]
  calc s.data.map (Char.toUpper ∘ Char.toUpper)
      = s.data.map Char.toUpper := List.map_congr_left this

theorem isAllDigits_upStr (s : String) : isAllDigits (upStr s) = isAllDigits s := by
  unfold isAllDigits
  rw [upStr_data, List.all_map]
  have h1 : (s.data.map Char.toUpper).isEmpty = s.data.isEmpty := by
    cases s.data <;> rfl
  rw [h1]
  have h2 : s.data.all (Char.isDigit ∘ Char.toUpper) = s.data.all Char.isDigit := by
    induction s.data with
    | nil => rfl
    | cons c tl ih =>
      rw [List.all_cons, List.all_cons, ih]
      rw [show (Char.isDigit ∘ Char.toUpper) c = c.toUpper.isDigit from rfl, toUpper_isDigit c]
  rw [h2]

theorem upStr_of_digits (s : String) (h : s.data.all Char.isDigit = true) : upStr s = s := by
  unfold upStr
  rw [map_fixpoints s.data (fun c hc => toUpper_of_isDigit c (List.all_eq_true.mp h c hc))]

theorem isAllDigits_false_of_alpha (s : String) (hne : s.data ≠ [])
    (h : s.data.all Char.isAlpha = true) : isAllDigits s = false := by
  unfold isAllDigits
  cases hd : s.data with
  | nil => exact absurd hd hne
  | cons c tl =>
    have hc : c.isAlpha = true := by
      rw [hd, List.all_cons, Bool.and_eq_true] at h
      exact h.1
    have : c.isDigit = false := not_isDigit_of_isAlpha c hc
    simp [this]

/-! ### Groundwork lemmas: lists and the loader -/

theorem firstDup_none_nodup : ∀ l : List String, firstDup l = none → l.Nodup := by
  intro l
  induction l with
  | nil => intro _; exact List.nodup_nil
  | cons c rest ih =>
    intro h
    unfold firstDup at h
    by_cases hc : rest.contains c
    · rw [if_pos hc] at h; exact absurd h (by simp)
    · rw [if_neg hc] at h
      refine List.nodup_cons.mpr ⟨?_, ih h⟩
      intro hmem
      rw [List.contains_eq_any_beq] at hc
      exact hc (List.any_eq_true.mpr ⟨c, hmem, by simp⟩)

theorem find_unique {α : Type} {f : α → Option String} {a : String} :
    ∀ {l : List α} {r : α}, (l.filterMap f).Nodup → r ∈ l → f r = some a →
      l.find? (fun x => f x == some a) = some r := by
  intro l
  induction l with
  | nil => intro r _ hr _; exact absurd hr (List.not_mem_nil r)
  | cons x tl ih =>
    intro r hnd hr hf
    by_cases hx : f x = some a
    · have hr2 : r = x := by
        rcases List.mem_cons.mp hr with h1 | h2
        · exact h1
        · exfalso
          have hmem : a ∈ tl.filterMap f := List.mem_filterMap.mpr ⟨r, h2, hf⟩
          have hfm : (x :: tl).filterMap f = a :: tl.filterMap f := by
            rw [List.filterMap_cons, hx]
          rw [hfm] at hnd
          exact (List.nodup_cons.mp hnd).1 hmem
      subst hr2
      simp [List.find?_cons, hx]
    · have hfind : ((fun y => f y == some a) x) = false := by
        simp [hx]
      have hr2 : r ∈ tl := by
        rcases List.mem_cons.mp hr with h1 | h2
        · exact absurd (h1 ▸ hf) hx
        · exact h2
      have hnd2 : (tl.filterMap f).Nodup := by
        rw [List.filterMap_cons] at hnd
        cases hcase : f x with
        | none => rw [hcase] at hnd; exact hnd
        | some b => rw [hcase] at hnd; exact (List.nodup_cons.mp hnd).2
      rw [List.find?_cons]
      simp only [hfind]
      exact ih hnd2 hr2 hf

theorem find_exists {α : Type} (p : α → Bool) :
    ∀ {l : List α} {r : α}, r ∈ l → p r = true →
      ∃ x, l.find? p = some x ∧ p x = true := by
  intro l r hr hp
  have hsome : (l.find? p).isSome := List.find?_isSome.mpr ⟨r, hr, hp⟩
  obtain ⟨x, hx⟩ := Option.isSome_iff_exists.mp hsome
  exact ⟨x, hx, List.find?_some hx⟩

theorem find_none {α : Type} {p : α → Bool} {l : List α} (h : ∀ x ∈ l, p x = false) :
    l.find? p = none := by
  rw [List.find?_eq_none]
  intro x hx
  rw [h x hx]
  simp

theorem load_ok_inv {reg : String} {ds : List RecordInfo} {c : Codeset}
    (h : Codeset.load reg ds = Except.ok c) :
    c.records = ds.map normRec
    ∧ ((ds.map normRec).filterMap (fun r => r.alpha2)).Nodup
    ∧ ((ds.map normRec).filterMap (fun r => r.alpha3)).Nodup := by
  unfold Codeset.load at h
  cases h2 : firstDup ((ds.map normRec).filterMap (fun r => r.alpha2)) with
  | some v => rw [h2] at h; exact absurd h (by simp)
  | none =>
    rw [h2] at h
    cases h3 : firstDup ((ds.map normRec).filterMap (fun r => r.alpha3)) with
    | some v => rw [h3] at h; exact absurd h (by simp)
    | none =>
      rw [h3] at h
      cases h4 : firstDup (((ds.map normRec).filterMap (fun r => r.numeric)).map natToCode) with
      | some v => rw [h4] at h; exact absurd h (by simp)
      | none =>
        rw [h4] at h
        have hc : c = Codeset.mk reg (ds.map normRec) := by
          cases h
          rfl
        subst hc
        exact ⟨rfl, firstDup_none_nodup _ h2, firstDup_none_nodup _ h3⟩

theorem stored_upper {reg : String} {ds : List RecordInfo} {c : Codeset}
    (h : Codeset.load reg ds = Except.ok c) :
    ∀ r ∈ c.records,
      (∀ a, r.alpha2 = some a → upStr a = a) ∧ (∀ a, r.alpha3 = some a → upStr a = a) := by
  intro r hr
  rw [(load_ok_inv h).1] at hr
  obtain ⟨r0, _, rfl⟩ := List.mem_map.mp hr
  constructor
  · intro a ha
    unfold normRec at ha
    obtain ⟨b, _, rfl⟩ := Option.map_eq_some.mp ha
    exact upStr_idem b
  · intro a ha
    unfold normRec at ha
    obtain ⟨b, _, rfl⟩ := Option.map_eq_some.mp ha
    exact upStr_idem b

/-! ### Lookup behavior lemmas -/

theorem bool_false_of_not_true {b : Bool} (h : ¬ b = true) : b = false := by
  cases hb : b
  · rfl
  · exact absurd hb h

theorem lookup_eq_alpha_of_not_digits (c : Codeset) (s : String) (h : isAllDigits s = false) :
    c.lookup s = c.lookupByAlpha s := by
  unfold Codeset.lookup
  rw [h]
  rfl

theorem lookup_digits_some (c : Codeset) (s : String) (x : RecordInfo)
    (hd : isAllDigits s = true) (hn : c.lookupByNumeric (digitsVal s) = some x) :
    c.lookup s = some x := by
  unfold Codeset.lookup
  rw [hd, hn]
  rfl

theorem lookup_digits_none (c : Codeset) (s : String)
    (hd : isAllDigits s = true) (hn : c.lookupByNumeric (digitsVal s) = none) :
    c.lookup s = c.lookupByAlpha s := by
  unfold Codeset.lookup
  rw [hd, hn]
  rfl

theorem lookupByAlpha_upStr (c : Codeset) (s : String) :
    c.lookupByAlpha (upStr s) = c.lookupByAlpha s := by
  unfold Codeset.lookupByAlpha
  rw [upStr_idem]

theorem lookup_upStr (c : Codeset) (s : String) : c.lookup (upStr s) = c.lookup s := by
  by_cases hd : isAllDigits s = true
  · have hfix : upStr s = s := by
      unfold isAllDigits at hd
      rw [Bool.and_eq_true] at hd
      exact upStr_of_digits s hd.2
    rw [hfix]
  · have hd1 : isAllDigits s = false := bool_false_of_not_true hd
    have hd2 : isAllDigits (upStr s) = false := by rw [isAllDigits_upStr]; exact hd1
    rw [lookup_eq_alpha_of_not_digits c _ hd2, lookup_eq_alpha_of_not_digits c s hd1]
    exact lookupByAlpha_upStr c s

theorem lookupByAlpha_found_alpha2 {c : Codeset} {a : String} (hup : upStr a = a)
    (hlen : a.data.length = 2) (hex : ∃ r ∈ c.records, r.alpha2 = some a) :
    ∃ x, c.lookupByAlpha a = some x ∧ x.alpha2 = some a := by
  obtain ⟨r, hr, hra⟩ := hex
  unfold Codeset.lookupByAlpha
  rw [hup, if_pos hlen]
  obtain ⟨x, hx, hpx⟩ := find_exists (fun x => x.alpha2 == some a) hr (show (r.alpha2 == some a) = true by rw [hra]; simp)
  refine ⟨x, hx, ?_⟩
  simpa using hpx

theorem lookupByAlpha_found_alpha3 {c : Codeset} {a : String} (hup : upStr a = a)
    (hlen : a.data.length = 3) (hex : ∃ r ∈ c.records, r.alpha3 = some a) :
    ∃ x, c.lookupByAlpha a = some x ∧ x.alpha3 = some a := by
  obtain ⟨r, hr, hra⟩ := hex
  unfold Codeset.lookupByAlpha
  rw [hup, if_neg (by rw [hlen]; omega), if_pos hlen]
  obtain ⟨x, hx, hpx⟩ := find_exists (fun x => x.alpha3 == some a) hr (show (r.alpha3 == some a) = true by rw [hra]; simp)
  refine ⟨x, hx, ?_⟩
  simpa using hpx

theorem lookupByNumeric_found {c : Codeset} {n : Nat} (hex : ∃ r ∈ c.records, r.numeric = some n) :
    ∃ x, c.lookupByNumeric n = some x ∧ x.numeric = some n := by
  obtain ⟨r, hr, hrn⟩ := hex
  unfold Codeset.lookupByNumeric
  obtain ⟨x, hx, hpx⟩ := find_exists (fun x => x.numeric == some n) hr (show (r.numeric == some n) = true by rw [hrn]; simp)
  refine ⟨x, hx, ?_⟩
  simpa using hpx

/-! ### Claim theorems -/

/-- C1: for every loaded registry (well-formed alphabetic identifiers per
the data model) and every identifier returned by `all_codes`, `lookup` on
that identifier returns a record, and the returned record carries that
identifier among its identifier forms (round-trip between enumeration and
lookup). -/
theorem C1_allCodes_lookup_roundtrip (reg : String) (ds : List RecordInfo) (c : Codeset)
    (hload : Codeset.load reg ds = Except.ok c)
    (hwf : ∀ r ∈ c.records, alphaWF r = true) :
    ∀ p ∈ c.allCodes, ∃ x, c.lookup p.2 = some x ∧ p.2 ∈ recIdentStrings x := by
  intro p hp
  unfold Codeset.allCodes at hp
  rw [List.mem_flatMap] at hp
  obtain ⟨r, hr, hpr⟩ := hp
  unfold recCodes at hpr
  rw [List.mem_append, List.mem_append] at hpr
  rcases hpr with (h2 | h3) | hn
  · cases ha : r.alpha2 with
    | none => rw [ha] at h2; exact absurd h2 (List.not_mem_nil p)
    | some a =>
      rw [ha] at h2
      have hpa : p = (IdForm.alpha2, a) := List.mem_singleton.mp h2
      subst hpa
      have hwfr := hwf r hr
      unfold alphaWF at hwfr
      rw [ha, Bool.and_eq_true, Bool.and_eq_true] at hwfr
      obtain ⟨⟨hlen, halpha⟩, _⟩ := hwfr
      have hlen2 : a.data.length = 2 := by simpa using hlen
      have hup : upStr a = a := (stored_upper hload r hr).1 a ha
      have hne : a.data ≠ [] := by intro hnil; rw [hnil] at hlen2; simp at hlen2
      rw [show (IdForm.alpha2, a).2 = a from rfl,
        lookup_eq_alpha_of_not_digits c a (isAllDigits_false_of_alpha a hne halpha)]
      obtain ⟨x, hx, hxa⟩ := lookupByAlpha_found_alpha2 hup hlen2 ⟨r, hr, ha⟩
      refine ⟨x, hx, ?_⟩
      unfold recIdentStrings
      rw [hxa]
      simp
  · cases ha : r.alpha3 with
    | none => rw [ha] at h3; exact absurd h3 (List.not_mem_nil p)
    | some a =>
      rw [ha] at h3
      have hpa : p = (IdForm.alpha3, a) := List.mem_singleton.mp h3
      subst hpa
      have hwfr := hwf r hr
      unfold alphaWF at hwfr
      rw [ha, Bool.and_eq_true] at hwfr
      obtain ⟨_, hwf3⟩ := hwfr
      rw [Bool.and_eq_true] at hwf3
      obtain ⟨hlen, halpha⟩ := hwf3
      have hlen3 : a.data.length = 3 := by simpa using hlen
      have hup : upStr a = a := (stored_upper hload r hr).2 a ha
      have hne : a.data ≠ [] := by intro hnil; rw [hnil] at hlen3; simp at hlen3
      rw [show (IdForm.alpha3, a).2 = a from rfl,
        lookup_eq_alpha_of_not_digits c a (isAllDigits_false_of_alpha a hne halpha)]
      obtain ⟨x, hx, hxa⟩ := lookupByAlpha_found_alpha3 hup hlen3 ⟨r, hr, ha⟩
      refine ⟨x, hx, ?_⟩
      unfold recIdentStrings
      rw [hxa]
      simp
  · cases hm : r.numeric with
    | none => rw [hm] at hn; exact absurd hn (List.not_mem_nil p)
    | some m =>
      rw [hm] at hn
      have hpm : p = (IdForm.numeric, natToCode m) := List.mem_singleton.mp hn
      subst hpm
      obtain ⟨x, hx, hxm⟩ := lookupByNumeric_found ⟨r, hr, hm⟩
      refine ⟨x, ?_, ?_⟩
      · apply lookup_digits_some c _ x (isAllDigits_natToCode m)
        rw [digitsVal_natToCode m]
        exact hx
      · unfold recIdentStrings
        rw [hxm]
        simp

/-- Witness for C1 at the country registry and the enumerated identifier
(alpha3, MEX). -/
theorem C1_witness :
    ∃ x, countryCodeset.lookup "MEX" = some x ∧ "MEX" ∈ recIdentStrings x :=
  C1_allCodes_lookup_roundtrip "country" countryData countryCodeset (by decide) (by decide)
    (IdForm.alpha3, "MEX") (by decide)

/-- C2: loading a dataset in which two records share an alpha-3 identifier
fails with DuplicateIdentifier naming the registry, the form and the
value, and the failed registry stays unqueryable: every subsequent lookup
through the load result, including one for the unrelated valid identifier
MX, reproduces the load error instead of an answer. -/
theorem C2_duplicate_identifier_fails_and_unqueryable :
    Codeset.load "country" countryDupData
        = Except.error (LoadError.DuplicateIdentifier "country" IdForm.alpha3 "MEX")
    ∧ (∀ s : String, tryLookup (Codeset.load "country" countryDupData) s
        = Except.error (LoadError.DuplicateIdentifier "country" IdForm.alpha3 "MEX"))
    ∧ tryLookup (Codeset.load "country" countryDupData) "MX"
        = Except.error (LoadError.DuplicateIdentifier "country" IdForm.alpha3 "MEX") := by
  have h : Codeset.load "country" countryDupData
      = Except.error (LoadError.DuplicateIdentifier "country" IdForm.alpha3 "MEX") := by decide
  refine ⟨h, fun s => ?_, ?_⟩
  · rw [h]; rfl
  · rw [h]; rfl

/-- C3: lookup is case-insensitive -- two queries with the same
uppercasing resolve identically -- and a loaded registry stores every
alphabetic identifier in canonical uppercase form (uppercasing the stored
code is the identity). -/
theorem C3_case_insensitive_and_canonical_upper :
    (∀ (c : Codeset) (s1 s2 : String), upStr s1 = upStr s2 → c.lookup s1 = c.lookup s2)
    ∧ (∀ (reg : String) (ds : List RecordInfo) (c : Codeset),
        Codeset.load reg ds = Except.ok c → ∀ r ∈ c.records, ∀ a : String,
          r.alpha2 = some a ∨ r.alpha3 = some a → upStr a = a) := by
  constructor
  · intro c s1 s2 h
    rw [← lookup_upStr c s1, ← lookup_upStr c s2, h]
  · intro reg ds c hload r hr a ha
    rcases ha with h | h
    · exact (stored_upper hload r hr).1 a h
    · exact (stored_upper hload r hr).2 a h

/-- Witness for C3: lookup of mex and MEX agree on the country registry,
and the stored canonical form MEX is uppercase. -/
theorem C3_witness :
    countryCodeset.lookup "mex" = countryCodeset.lookup "MEX" ∧ upStr "MEX" = "MEX" :=
  ⟨C3_case_insensitive_and_canonical_upper.1 countryCodeset "mex" "MEX" (by decide),
   C3_case_insensitive_and_canonical_upper.2 "country" countryData countryCodeset (by decide)
     countryMexRecord (by decide) "MEX" (Or.inr (by decide))⟩

/-- C4: in a loaded registry, a record carrying both an alpha-2 and an
alpha-3 identifier (well-formed per the data model) is returned by lookup
on either identifier: both lookups yield that same record. -/
theorem C4_alpha2_alpha3_same_record (reg : String) (ds : List RecordInfo) (c : Codeset)
    (r : RecordInfo) (a2 a3 : String)
    (hload : Codeset.load reg ds = Except.ok c) (hr : r ∈ c.records)
    (h2 : r.alpha2 = some a2) (h3 : r.alpha3 = some a3)
    (h2len : a2.data.length = 2) (h2alpha : a2.data.all Char.isAlpha = true)
    (h3len : a3.data.length = 3) (h3alpha : a3.data.all Char.isAlpha = true) :
    c.lookup a2 = some r ∧ c.lookup a3 = some r := by
  obtain ⟨hrecords, hnd2, hnd3⟩ := load_ok_inv hload
  constructor
  · have hup : upStr a2 = a2 := (stored_upper hload r hr).1 a2 h2
    have hne : a2.data ≠ [] := by intro hnil; rw [hnil] at h2len; simp at h2len
    rw [lookup_eq_alpha_of_not_digits c a2 (isAllDigits_false_of_alpha a2 hne h2alpha)]
    unfold Codeset.lookupByAlpha
    rw [hup, if_pos h2len]
    rw [hrecords] at hr ⊢
    exact find_unique hnd2 hr h2
  · have hup : upStr a3 = a3 := (stored_upper hload r hr).2 a3 h3
    have hne : a3.data ≠ [] := by intro hnil; rw [hnil] at h3len; simp at h3len
    rw [lookup_eq_alpha_of_not_digits c a3 (isAllDigits_false_of_alpha a3 hne h3alpha)]
    unfold Codeset.lookupByAlpha
    rw [hup, if_neg (by rw [h3len]; omega), if_pos h3len]
    rw [hrecords] at hr ⊢
    exact find_unique hnd3 hr h3

/-- Witness for C4 at the Mexico record of the country registry: lookup
on MX and on MEX both return that record. -/
theorem C4_witness :
    countryCodeset.lookup "MX" = some countryMexRecord
    ∧ countryCodeset.lookup "MEX" = some countryMexRecord :=
  C4_alpha2_alpha3_same_record "country" countryData countryCodeset countryMexRecord "MX" "MEX"
    (by decide) (by decide) (by decide) (by decide) (by decide) (by decide) (by decide) (by decide)

/-- C5: the country and language registries resolve both their
2-character and their 3-character alphabetic identifiers through the one
unified lookup (country lookup of MEX succeeds), and the module lookups
are exactly the generic engine applied to the registry codeset, with no
registry-specific special casing. -/
theorem C5_two_and_three_char_through_single_lookup :
    country.lookup "MEX" = some countryMexRecord
    ∧ country.lookup "MX" = some countryMexRecord
    ∧ language.lookup "ENG" = some languageEnRecord
    ∧ language.lookup "EN" = some languageEnRecord
    ∧ (∀ s : String, country.lookup s = countryCodeset.lookup s)
    ∧ (∀ s : String, language.lookup s = languageCodeset.lookup s) :=
  ⟨by decide, by decide, by decide, by decide, fun _ => rfl, fun _ => rfl⟩

/-- C6: resolution order of the unified lookup: input that is not all
digits goes to the alphabetic index of its exact length; all-digit input
is tried against the numeric index first (a numeric hit wins outright)
and only on a numeric miss falls back to the alphabetic indices; the
alphabetic resolution consults exactly the index matching the query
length. -/
theorem C6_resolution_order (c : Codeset) (s : String) :
    (isAllDigits s = false → c.lookup s = c.lookupByAlpha s)
    ∧ (∀ x, isAllDigits s = true → c.lookupByNumeric (digitsVal s) = some x →
        c.lookup s = some x)
    ∧ (isAllDigits s = true → c.lookupByNumeric (digitsVal s) = none →
        c.lookup s = c.lookupByAlpha s)
    ∧ ((upStr s).data.length = 2 →
        c.lookupByAlpha s = c.records.find? (fun r => r.alpha2 == some (upStr s)))
    ∧ ((upStr s).data.length = 3 →
        c.lookupByAlpha s = c.records.find? (fun r => r.alpha3 == some (upStr s))) := by
  refine ⟨?_, ?_, ?_, ?_, ?_⟩
  · intro h
    exact lookup_eq_alpha_of_not_digits c s h
  · intro x hd hn
    exact lookup_digits_some c s x hd hn
  · intro hd hn
    exact lookup_digits_none c s hd hn
  · intro hlen
    unfold Codeset.lookupByAlpha
    rw [if_pos hlen]
  · intro hlen
    unfold Codeset.lookupByAlpha
    rw [if_neg (by rw [hlen]; omega), if_pos hlen]

/-- Witness for C6 at the region registry: the all-digit query 019 is
resolved through the numeric index. -/
theorem C6_witness : regionCodeset.lookup "019" = some regionAmericasRecord :=
  (C6_resolution_order regionCodeset "019").2.1 regionAmericasRecord (by decide) (by decide)

/-- C7: a query matching no record of the registry in any identifier form
makes lookup (and the restricted lookups) return the absent option, never
an error. -/
theorem C7_not_found_is_none (c : Codeset) (s : String)
    (h : ∀ r ∈ c.records, r.alpha2 ≠ some (upStr s) ∧ r.alpha3 ≠ some (upStr s)
        ∧ r.numeric ≠ some (digitsVal s)) :
    c.lookup s = none ∧ c.lookupByAlpha s = none
    ∧ c.lookupByNumeric (digitsVal s) = none := by
  have hnum : c.lookupByNumeric (digitsVal s) = none := by
    apply find_none
    intro x hx
    exact beq_eq_false_iff_ne.mpr (h x hx).2.2
  have halpha : c.lookupByAlpha s = none := by
    unfold Codeset.lookupByAlpha
    by_cases h2 : (upStr s).data.length = 2
    · rw [if_pos h2]
      apply find_none
      intro x hx
      exact beq_eq_false_iff_ne.mpr (h x hx).1
    · rw [if_neg h2]
      by_cases h3 : (upStr s).data.length = 3
      · rw [if_pos h3]
        apply find_none
        intro x hx
        exact beq_eq_false_iff_ne.mpr (h x hx).2.1
      · rw [if_neg h3]
  refine ⟨?_, halpha, hnum⟩
  by_cases hd : isAllDigits s = true
  · rw [lookup_digits_none c s hd hnum]
    exact halpha
  · rw [lookup_eq_alpha_of_not_digits c s (bool_false_of_not_true hd)]
    exact halpha

/-- Witness for C7: the query QQ matches nothing in the country registry
and lookup returns the absent option. -/
theorem C7_witness :
    countryCodeset.lookup "QQ" = none
    ∧ countryCodeset.lookupByAlpha "QQ" = none
    ∧ countryCodeset.lookupByNumeric (digitsVal "QQ") = none :=
  C7_not_found_is_none countryCodeset "QQ" (by decide)

/-- C8: strict locale building with a known language and an unknown
region fails with UnknownIdentifier("region", code); lenient building
with the same inputs succeeds and returns the components joined by the
separator, unchanged (inputs already in conventional case). -/
theorem C8_strict_fails_lenient_composes (langCs scriptCs regionCs : Codeset)
    (lang rg : String) (x : RecordInfo)
    (hlang : langCs.lookup lang = some x)
    (hrg : regionCs.lookup rg = none)
    (hlangCase : downStr lang = lang) (hrgCase : upStr rg = rg) :
    buildLocale langCs scriptCs regionCs true lang none (some rg)
        = Except.error (BuildError.UnknownIdentifier "region" rg)
    ∧ buildLocale langCs scriptCs regionCs false lang none (some rg)
        = Except.ok (lang ++ "-" ++ rg) := by
  constructor
  · simp [buildLocale, checkComponent, hlang, hrg]
  · have hcomp : composeLocale lang none (some rg) = (downStr lang ++ "") ++ ("-" ++ upStr rg) := rfl
    unfold buildLocale
    rw [if_neg (by simp), hcomp, hlangCase, hrgCase, String.append_empty, String.append_assoc]

/-- Witness for C8: language en is known, region code ZZ is unknown in
the country registry; strict building fails with
UnknownIdentifier("region", "ZZ") while lenient building yields en-ZZ. -/
theorem C8_witness :
    buildLocale languageCodeset scriptCodeset countryCodeset true "en" none (some "ZZ")
        = Except.error (BuildError.UnknownIdentifier "region" "ZZ")
    ∧ buildLocale languageCodeset scriptCodeset countryCodeset false "en" none (some "ZZ")
        = Except.ok ("en" ++ "-" ++ "ZZ") :=
  C8_strict_fails_lenient_composes languageCodeset scriptCodeset countryCodeset "en" "ZZ"
    (normRec languageEnRecord) (by decide) (by decide) (by decide) (by decide)

/-- C9: the spec end-to-end scenario: country lookup of MEX returns the
Mexico record, whose region code 019 resolves through the region
registry's lookup to the Americas record, and the currency join for
Mexico returns the MXN record; the country-to-region join function
resolves the foreign key the same way. -/
theorem C9_cross_registry_joins :
    country.lookup "MEX" = some countryMexRecord
    ∧ countryMexRecord.regionCode = some "019"
    ∧ region.lookup "019" = some regionAmericasRecord
    ∧ regionAmericasRecord.name = "Americas"
    ∧ currency.currenciesForCountryName "Mexico" = [currencyMxnRecord]
    ∧ currencyMxnRecord.alpha3 = some "MXN"
    ∧ country.regionForCountry "MEX" = some regionAmericasRecord := by
  refine ⟨by decide, by decide, by decide, by decide, by decide, by decide, by decide⟩

/-- C10 counterexample: the claimed surface rule fails on the registry
modules: the region module exposes a single unified lookup although its
only identifier form is numeric, so a unified lookup is not reserved to
purely alphabetic registries. -/
theorem C10_counterexample :
    ¬ (∀ s ∈ registrySurfaces, surfaceAsClaimed s) := by
  intro h
  have := h regionSurface (by decide)
  revert this
  decide

/-- C10 (amended): registries with both alphabetic and numeric identifier
forms (currency, script) expose the lookup_by_alpha / lookup_by_numeric
pair instead of a unified lookup; a single unified lookup exists only for
registries that do not mix alphabetic and numeric keyspaces (purely
alphabetic language and country, numeric-only region). -/
theorem C10_amended_surface_rule : ∀ s ∈ registrySurfaces, surfaceAmended s := by
  decide

/-- Witness for C10 at the region module surface: numeric-only, with a
unified lookup and no alpha/numeric pair. -/
theorem C10_witness : surfaceAmended regionSurface :=
  C10_amended_surface_rule regionSurface (by decide)

end LocaleCodes
